import Mathlib

/-!
Shallow embedding of `src/mogolibot.py` (MartinNewmann/MogoliBOT), a group-chat
gamification bot over a SQLite database.  The four tables (`users`,
`daily_stats`, `daily_selection`, `immune`) are modelled as association lists
keyed exactly as the SQL primary keys; each handler becomes a function from a
`DB` value (plus the message data and an explicit randomness parameter in
place of `random.choice`) to a new `DB` value and a structured reply.
Timestamps are integers measured in days, so the SQL comparison
`last_seen >= now - 7 days` becomes an integer comparison.
-/

namespace MogoliBot

/-- Configuration constant `DAILY_START_BALANCE = 75` (src/mogolibot.py:25). -/
def DAILY_START_BALANCE : Int := 75

/-- Configuration constant `ALERT_THRESHOLD = 21` (src/mogolibot.py:26). -/
def ALERT_THRESHOLD : Int := 21

/-- Configuration constant `RECENT_DAYS_WINDOW = 7` (src/mogolibot.py:24). -/
def RECENT_DAYS_WINDOW : Int := 7

/-- The hard-coded global exemption set `IMMUNE_USERS = set()` (src/mogolibot.py:29):
empty by default, administered only through the immune tables. -/
def IMMUNE_USERS : List String := []

/-- A row of the `users` table: `(chat_id, user_id)` is the key, the row stores
`username`, `last_seen` and `balance` (src/mogolibot.py:44-51). -/
structure UserRec where
  username : Option String
  lastSeen : Int
  balance : Int
deriving DecidableEq

/-- A row of the `daily_stats` table, keyed by `(chat_id, user_id, day)`
(src/mogolibot.py:54-62). -/
structure StatRec where
  given : Int
  received : Int
deriving DecidableEq

/-- A row of the `immune` table (src/mogolibot.py:74-79); `user_id` and
`username` are both nullable. -/
structure ImmuneRec where
  chatId : Int
  userId : Option Int
  username : Option String
deriving DecidableEq

/-- The whole database state: the four tables created by `init_db`
(src/mogolibot.py:41-80).  `dailySelection` rows are `(chat_id, day, user_id)`. -/
structure DB where
  users : List ((Int × Int) × UserRec)
  dailyStats : List ((Int × Int × Int) × StatRec)
  dailySelection : List (Int × Int × Int)
  immune : List ImmuneRec
deriving DecidableEq

/-- Lookup of the (first) row with the given key in an association list; models a
`SELECT ... WHERE key=?` against a primary-keyed table. -/
def lookupA {κ α : Type} [DecidableEq κ] : List (κ × α) → κ → Option α
  | [], _ => none
  | (k', a) :: t, k => if k' = k then some a else lookupA t k

/-- In-place update of the row with the given key (models `UPDATE ... WHERE key=?`
on a primary-keyed table); leaves the list unchanged when the key is absent. -/
def setA {κ α : Type} [DecidableEq κ] : List (κ × α) → κ → α → List (κ × α)
  | [], k, a => [(k, a)]
  | (k', a') :: t, k, a => if k' = k then (k, a) :: t else (k', a') :: setA t k a

/-- Like `setA` but only applies a function to the stored row when the key is
present (models `UPDATE` which touches no row when the `WHERE` matches none). -/
def updateA {κ α : Type} [DecidableEq κ] : List (κ × α) → κ → (α → α) → List (κ × α)
  | [], _, _ => []
  | (k', a') :: t, k, f => if k' = k then (k, f a') :: t else (k', a') :: updateA t k f

/-- Models `INSERT OR IGNORE`: appends a fresh row at the end unless the key is
already present. -/
def insertIgnoreA {κ α : Type} [DecidableEq κ] (l : List (κ × α)) (k : κ) (a : α) :
    List (κ × α) :=
  match lookupA l k with
  | some _ => l
  | none => l ++ [(k, a)]

/-- Embeds `upsert_user` (src/mogolibot.py:91-99): a new user is created with
balance `DAILY_START_BALANCE`; on conflict only `username` and `last_seen` are
updated and the balance is kept. -/
def upsert_user (db : DB) (chatId userId : Int) (username : Option String) (now : Int) : DB :=
  match lookupA db.users (chatId, userId) with
  | some r =>
      let r2 : UserRec := { r with username := username, lastSeen := now }
      { db with users := setA db.users (chatId, userId) r2 }
  | none =>
      { db with users := setA db.users (chatId, userId) ⟨username, now, DAILY_START_BALANCE⟩ }

/-- Embeds `seen_user` (src/mogolibot.py:101-102), an alias of `upsert_user`. -/
def seen_user (db : DB) (chatId userId : Int) (username : Option String) (now : Int) : DB :=
  upsert_user db chatId userId username now

/-- Python truthiness of an optional integer (`if user_id:`): false for `None`
and for `0`. -/
def truthyId : Option Int → Bool
  | none => false
  | some n => n != 0

/-- Lower-casing of a string, character by character; models Python's
`str.lower()` and SQLite's `LOWER()`. -/
def lowerStr (s : String) : String := ⟨s.data.map Char.toLower⟩

/-- The Python expression `(username or "").lower()`. -/
def lcOf (s : Option String) : String := lowerStr (s.getD "")

/-- Embeds `is_user_immune` (src/mogolibot.py:104-123): the global set, then an
id match, then a case-insensitive username match against the `immune` table.
A SQL `user_id=?` or `LOWER(username)=?` never matches a NULL column. -/
def is_user_immune (db : DB) (chatId : Int) (uid : Option Int) (username : Option String) :
    Bool :=
  let unameLc := lcOf username
  if unameLc ∈ IMMUNE_USERS then true
  else
    (truthyId uid && db.immune.any fun e => e.chatId == chatId && e.userId == uid) ||
    (unameLc != "" && db.immune.any fun e =>
      e.chatId == chatId &&
        (match e.username with
         | some s => lowerStr s == unameLc
         | none => false))

/-- Embeds `get_recent_users` (src/mogolibot.py:161-176): the chat's users whose
`last_seen` is within `RECENT_DAYS_WINDOW`, with immune users filtered out. -/
def get_recent_users (db : DB) (chatId : Int) (now : Int) : List (Int × String) :=
  let cutoff := now - RECENT_DAYS_WINDOW
  let rows := db.users.filterMap fun p =>
    if p.1.1 = chatId ∧ cutoff ≤ p.2.lastSeen then some (p.1.2, p.2.username.getD "")
    else none
  rows.filter fun q => !(is_user_immune db chatId (some q.1) (some q.2))

/-- Embeds `ensure_stats_row` (src/mogolibot.py:178-183). -/
def ensure_stats_row (db : DB) (chatId userId day : Int) : DB :=
  { db with dailyStats := insertIgnoreA db.dailyStats (chatId, userId, day) ⟨0, 0⟩ }

/-- Embeds `adjust_balance` (src/mogolibot.py:185-197): returns the updated
database together with the `(ok, balance)` pair returned by the Python function. -/
def adjust_balance (db : DB) (chatId userId delta : Int) : DB × Bool × Int :=
  match lookupA db.users (chatId, userId) with
  | none => (db, false, 0)
  | some r =>
      let newBal := r.balance + delta
      if newBal < 0 then (db, false, r.balance)
      else
        ({ db with users := setA db.users (chatId, userId) ({ r with balance := newBal }) },
         true, newBal)

/-- Embeds `add_given_received` (src/mogolibot.py:199-218): two `INSERT OR IGNORE`
of zeroed rows, then the giver's `given` and the recipient's `received` are each
incremented by `amount`. -/
def add_given_received (db : DB) (chatId giverId recipientId amount day : Int) : DB :=
  let s1 := insertIgnoreA db.dailyStats (chatId, giverId, day) ⟨0, 0⟩
  let s2 := insertIgnoreA s1 (chatId, recipientId, day) ⟨0, 0⟩
  let s3 := updateA s2 (chatId, giverId, day) fun s => { s with given := s.given + amount }
  let s4 := updateA s3 (chatId, recipientId, day) fun s => { s with received := s.received + amount }
  { db with dailyStats := s4 }

/-- Embeds `get_received_today` (src/mogolibot.py:220-226). -/
def get_received_today (db : DB) (chatId userId day : Int) : Int :=
  match lookupA db.dailyStats (chatId, userId, day) with
  | some s => s.received
  | none => 0

/-- Embeds `mark_selection_today` (src/mogolibot.py:228-233): `INSERT OR IGNORE`
into `daily_selection`. -/
def mark_selection_today (db : DB) (chatId userId day : Int) : DB :=
  if (chatId, day, userId) ∈ db.dailySelection then db
  else { db with dailySelection := db.dailySelection ++ [(chatId, day, userId)] }

/-- The `received` counter of a `daily_stats` row, `0` when the row is absent. -/
def statReceived (db : DB) (chatId userId day : Int) : Int :=
  ((lookupA db.dailyStats (chatId, userId, day)).map StatRec.received).getD 0

/-- The `given` counter of a `daily_stats` row, `0` when the row is absent. -/
def statGiven (db : DB) (chatId userId day : Int) : Int :=
  ((lookupA db.dailyStats (chatId, userId, day)).map StatRec.given).getD 0

/-- The stored balance of a user, `none` when the user row is absent. -/
def balanceOf (db : DB) (chatId userId : Int) : Option Int :=
  (lookupA db.users (chatId, userId)).map UserRec.balance

/-- Embeds `list_today_highlights` (src/mogolibot.py:235-250): the first list is
the chat's `daily_stats` rows of the day with `received > ALERT_THRESHOLD`,
joined to `users` and ordered by `received` descending; the second is the day's
`daily_selection` rows joined to `users`. -/
def list_today_highlights (db : DB) (chatId day : Int) :
    List (Int × String × Int) × List (Int × String) :=
  let rec0 := db.dailyStats.filterMap fun p =>
    if p.1.1 = chatId ∧ p.1.2.2 = day ∧ ALERT_THRESHOLD < p.2.received then
      (lookupA db.users (chatId, p.1.2.1)).map fun u =>
        (p.1.2.1, u.username.getD "", p.2.received)
    else none
  let sorted := rec0.mergeSort fun a b => decide (b.2.2 ≤ a.2.2)
  let sel := db.dailySelection.filterMap fun t =>
    if t.1 = chatId ∧ t.2.1 = day then
      (lookupA db.users (chatId, t.2.2)).map fun u => (t.2.2, u.username.getD "")
    else none
  (sorted, sel)

/-- The de-duplication loop of `check_cmd` (src/mogolibot.py:459-464): keeps the
first occurrence of every user id, threading the `seen_set` accumulator. -/
def dedupByUid : List (Int × String) → List Int → List (Int × String)
  | [], _ => []
  | (uid, un) :: t, seenSet =>
      if uid ∈ seenSet then dedupByUid t seenSet
      else (uid, un) :: dedupByUid t (uid :: seenSet)

/-- Embeds `check_cmd` (src/mogolibot.py:447-470): `none` models the reply
"Hoy no hay destacados aún." sent exactly when both lists are empty; otherwise
the rendered lists (receivers, then the de-duplicated chosen users). -/
def check_cmd (db : DB) (chatId day : Int) :
    Option (List (Int × String × Int) × List (Int × String)) :=
  let hl := list_today_highlights db chatId day
  if hl.1.isEmpty ∧ hl.2.isEmpty then none
  else some (hl.1, dedupByUid hl.2 [])

/-- The parts of an inbound message that the handlers read.  The free-text
scraping of src/mogolibot.py is modelled by the pre-extracted tokens:
`mention` is the first token matched by `MENTION_RE` (src/mogolibot.py:32),
without the `@`; `idTokens` are the digit runs of length ≥ 6 found by
`re.findall(r"\d{6,}", text)` in text order (src/mogolibot.py:285); `numTokens`
are all digit runs found by `re.findall(r"\d+", text)` in text order
(src/mogolibot.py:365); `replyAuthor` is the author of the replied-to message. -/
structure Msg where
  replyAuthor : Option (Int × Option String)
  mention : Option String
  idTokens : List Int
  numTokens : List Int
deriving DecidableEq

/-- The lookup behind resolution rule 2 (src/mogolibot.py:276-282): find a chat
user whose stored username matches the mention case-insensitively. -/
def find_user_by_name (db : DB) (chatId : Int) (uname : String) : Option (Int × String) :=
  (db.users.find? fun p =>
      p.1.1 == chatId &&
        (match p.2.username with
         | some s => lowerStr s == lowerStr uname
         | none => false)).map
    fun p => (p.1.2, p.2.username.getD "")

/-- The lookup behind resolution rule 3 (src/mogolibot.py:288-294): find a chat
user by numeric id. -/
def find_user_by_id (db : DB) (chatId uid : Int) : Option (Int × String) :=
  (lookupA db.users (chatId, uid)).map fun u => (uid, u.username.getD "")

/-- Embeds `resolve_target_from_update` (src/mogolibot.py:256-296): reply author
first (also observing them), then the `@mention` lookup, then the last numeric
id token; the database is returned because the reply branch calls `seen_user`. -/
def resolve_target_from_update (db : DB) (chatId : Int) (msg : Msg) (now : Int) :
    DB × Option (Int × String) :=
  match msg.replyAuthor with
  | some (uid, uname) => (seen_user db chatId uid uname now, some (uid, uname.getD ""))
  | none =>
      let viaMention :=
        match msg.mention with
        | some m => find_user_by_name db chatId m
        | none => none
      match viaMention with
      | some t => (db, some t)
      | none =>
          match msg.idTokens.getLast? with
          | some uid => (db, find_user_by_id db chatId uid)
          | none => (db, none)

/-- The replies `regalar` can send, in order (src/mogolibot.py:357-445). -/
inductive Reply where
  | usage
  | selfGift
  | insufficient (bal : Int)
  | gifted (amount newBal destId : Int)
  | noBounceTarget
  | bounced (destId altId : Int)
  | chosenAlert (userId : Int)
deriving DecidableEq

/-- Models `random.choice` with an explicit index: for a nonempty list it
returns the element at `k` modulo the length, and `none` for the empty list. -/
def choose {α : Type} (k : Nat) (l : List α) : Option α :=
  l[k % l.length]?

/-- Embeds the alert/bounce tail of `regalar` (src/mogolibot.py:400-445), run
after a successful transfer to `destId` of `amount`: if today's received total
reached `ALERT_THRESHOLD` and the recipient is immune, the amount is moved from
the recipient's `received` (floored at zero) to a randomly chosen other recent
non-immune user's `received`, who in turn may be marked chosen; a non-immune
recipient is simply marked chosen. -/
def regalar_bounce (db : DB) (chatId destId : Int) (destUname : String)
    (amount day now : Int) (k : Nat) : DB × List Reply :=
  let totalRec := get_received_today db chatId destId day
  if ALERT_THRESHOLD ≤ totalRec then
    if is_user_immune db chatId (some destId) (some destUname) then
      let candidates := (get_recent_users db chatId now).filter fun q => q.1 != destId
      match choose k candidates with
      | none => (db, [Reply.noBounceTarget])
      | some (altId, _) =>
          let db1 := ensure_stats_row db chatId altId day
          let stats2 := updateA db1.dailyStats (chatId, destId, day) fun s =>
            { s with received := if amount ≤ s.received then s.received - amount else 0 }
          let db2 : DB := { db1 with dailyStats := stats2 }
          let stats3 := updateA db2.dailyStats (chatId, altId, day) fun s =>
            { s with received := s.received + amount }
          let db3 : DB := { db2 with dailyStats := stats3 }
          let altTotal := get_received_today db3 chatId altId day
          if ALERT_THRESHOLD ≤ altTotal then
            (mark_selection_today db3 chatId altId day,
             [Reply.bounced destId altId, Reply.chosenAlert altId])
          else (db3, [Reply.bounced destId altId])
    else
      (mark_selection_today db chatId destId day, [Reply.chosenAlert destId])
  else (db, [])

/-- Embeds the body of `regalar` up to the success reply (src/mogolibot.py:357-398):
observe the caller, resolve target and amount, reject usage errors, self-gifts
and insufficient funds, else debit the caller and record the transfer.  The
middle component carries `(destId, destUname, amount)` exactly when the
transfer succeeded, so the alert tail still has to run. -/
def regalar_core (db : DB) (chatId senderId : Int) (senderUname : Option String)
    (msg : Msg) (now day : Int) : DB × Option (Int × String × Int) × List Reply :=
  let db0 := seen_user db chatId senderId senderUname now
  let res := resolve_target_from_update db0 chatId msg now
  let db1 := res.1
  match res.2, msg.numTokens.getLast? with
  | none, _ => (db1, none, [Reply.usage])
  | some _, none => (db1, none, [Reply.usage])
  | some (destId, destUname), some amount =>
      if amount ≤ 0 then (db1, none, [Reply.usage])
      else if destId = senderId then (db1, none, [Reply.selfGift])
      else
        let adj := adjust_balance db1 chatId senderId (-amount)
        let db2 := adj.1
        if adj.2.1 = false then
          let bal :=
            match lookupA db2.users (chatId, senderId) with
            | some r => r.balance
            | none => 0
          (db2, none, [Reply.insufficient bal])
        else
          let db3 := ensure_stats_row db2 chatId senderId day
          let db4 := ensure_stats_row db3 chatId destId day
          let db5 := add_given_received db4 chatId senderId destId amount day
          (db5, some (destId, destUname, amount), [Reply.gifted amount adj.2.2 destId])

/-- Embeds the whole `regalar` handler (src/mogolibot.py:357-445): the transfer
part followed, on success, by the alert/bounce tail. -/
def regalar (db : DB) (chatId senderId : Int) (senderUname : Option String)
    (msg : Msg) (now day : Int) (k : Nat) : DB × List Reply :=
  let core := regalar_core db chatId senderId senderUname msg now day
  match core.2.1 with
  | none => (core.1, core.2.2)
  | some (destId, destUname, amount) =>
      let tail := regalar_bounce core.1 chatId destId destUname amount day now k
      (tail.1, core.2.2 ++ tail.2)

/-- Embeds `down` (src/mogolibot.py:339-355): observe the caller, pick a random
recent non-immune user, mark them chosen; `none` models the "no active users"
reply. -/
def down (db : DB) (chatId senderId : Int) (senderUname : Option String)
    (now day : Int) (k : Nat) : DB × Option (Int × String) :=
  let db0 := seen_user db chatId senderId senderUname now
  let candidates := get_recent_users db0 chatId now
  match choose k candidates with
  | none => (db0, none)
  | some (uid, uname) => (mark_selection_today db0 chatId uid day, some (uid, uname))

/-- The replies of `randomdown` (src/mogolibot.py:472-494). -/
inductive RandReply where
  | usage
  | isOn (uid : Int)
  | safe (uid : Int)
deriving DecidableEq

/-- Embeds `randomdown` (src/mogolibot.py:472-494): resolve the target; on coin
value `0` announce them "on" and mark them chosen, else announce them safe. -/
def randomdown (db : DB) (chatId : Int) (msg : Msg) (now day : Int) (eleccion : Nat) :
    DB × RandReply :=
  let res := resolve_target_from_update db chatId msg now
  match res.2 with
  | none => (res.1, RandReply.usage)
  | some (tid, _) =>
      if eleccion = 0 then (mark_selection_today res.1 chatId tid day, RandReply.isOn tid)
      else (res.1, RandReply.safe tid)

/-- Embeds `do_daily_reset` (src/mogolibot.py:635-639): `UPDATE users SET
balance = DAILY_START_BALANCE` with no `WHERE`, touching nothing else. -/
def do_daily_reset (db : DB) : DB :=
  { db with users := db.users.map fun p => (p.1, { p.2 with balance := DAILY_START_BALANCE }) }

/-- Embeds `_is_owner` (src/mogolibot.py:522-523): `OWNER_ID == 0` disables the
restriction entirely. -/
def _is_owner (ownerId userId : Int) : Bool :=
  ownerId == 0 || userId == ownerId

/-- Python truthiness of an optional string (`if username:` style checks). -/
def truthyStr (s : Option String) : Bool :=
  s.getD "" != ""

/-- Embeds `add_immune` (src/mogolibot.py:125-134): `INSERT OR IGNORE` into the
`immune` table, whose primary key coalesces NULL `user_id` to `-1` and NULL
`username` to the empty string. -/
def add_immune (db : DB) (chatId : Int) (uid : Option Int) (uname : Option String) : DB :=
  if db.immune.any fun e =>
      e.chatId == chatId && e.userId.getD (-1) == uid.getD (-1) &&
        e.username.getD "" == uname.getD "" then db
  else { db with immune := db.immune ++ [⟨chatId, uid, uname⟩] }

/-- Embeds `remove_immune` (src/mogolibot.py:136-151): delete by id when a
truthy id is given, else by lowercased username, returning the row count. -/
def remove_immune (db : DB) (chatId : Int) (uid : Option Int) (uname : Option String) :
    DB × Nat :=
  if truthyId uid then
    let remaining := db.immune.filter fun e => !(e.chatId == chatId && e.userId == uid)
    ({ db with immune := remaining }, db.immune.length - remaining.length)
  else if lcOf uname != "" then
    let unameLc := lcOf uname
    let remaining := db.immune.filter fun e =>
      !(e.chatId == chatId &&
          (match e.username with
           | some s => lowerStr s == unameLc
           | none => false))
    ({ db with immune := remaining }, db.immune.length - remaining.length)
  else (db, 0)

/-- Embeds `list_immunes` (src/mogolibot.py:153-159). -/
def list_immunes (db : DB) (chatId : Int) : List (Int × String) :=
  db.immune.filterMap fun e =>
    if e.chatId = chatId then some (e.userId.getD 0, e.username.getD "") else none

/-- The replies of the private immunity-administration handlers
(src/mogolibot.py:525-631).  `silent` models the bare `return` used outside a
private chat. -/
inductive AdminReply where
  | silent
  | notAuthorized
  | usage
  | added (chatId : Int)
  | removedOk (chatId : Int)
  | notFound
  | listing (rows : List (Int × String))
  | noImmunes
deriving DecidableEq

/-- Embeds `immune_add` (src/mogolibot.py:525-560): private-chat gate, owner
gate, then target (reply author first, else mention) and the first integer
token as the chat id. -/
def immune_add (db : DB) (ownerId : Int) (isPrivate : Bool) (callerId : Int)
    (msg : Msg) (chatIdArg : Option Int) : DB × AdminReply :=
  if !isPrivate then (db, AdminReply.silent)
  else if !(_is_owner ownerId callerId) then (db, AdminReply.notAuthorized)
  else
    let targetUid : Option Int := msg.replyAuthor.map Prod.fst
    let targetUname : Option String :=
      match msg.replyAuthor with
      | some (_, un) => un
      | none => msg.mention
    match chatIdArg with
    | none => (db, AdminReply.usage)
    | some cid =>
        if !(truthyId targetUid || truthyStr targetUname) then (db, AdminReply.usage)
        else (add_immune db cid targetUid targetUname, AdminReply.added cid)

/-- Embeds `immune_remove` (src/mogolibot.py:562-597). -/
def immune_remove (db : DB) (ownerId : Int) (isPrivate : Bool) (callerId : Int)
    (msg : Msg) (chatIdArg : Option Int) : DB × AdminReply :=
  if !isPrivate then (db, AdminReply.silent)
  else if !(_is_owner ownerId callerId) then (db, AdminReply.notAuthorized)
  else
    let targetUid : Option Int := msg.replyAuthor.map Prod.fst
    let targetUname : Option String :=
      match msg.replyAuthor with
      | some (_, un) => un
      | none => msg.mention
    match chatIdArg with
    | none => (db, AdminReply.usage)
    | some cid =>
        if !(truthyId targetUid || truthyStr targetUname) then (db, AdminReply.usage)
        else
          let out := remove_immune db cid targetUid targetUname
          if out.2 ≠ 0 then (out.1, AdminReply.removedOk cid)
          else (out.1, AdminReply.notFound)

/-- Embeds `immune_list` (src/mogolibot.py:599-631). -/
def immune_list (db : DB) (ownerId : Int) (isPrivate : Bool) (callerId : Int)
    (chatIdArg : Option Int) : DB × AdminReply :=
  if !isPrivate then (db, AdminReply.silent)
  else if !(_is_owner ownerId callerId) then (db, AdminReply.notAuthorized)
  else
    match chatIdArg with
    | none => (db, AdminReply.usage)
    | some cid =>
        let rows := list_immunes db cid
        if rows.isEmpty then (db, AdminReply.noImmunes)
        else (db, AdminReply.listing rows)

/-- The state-mutating operations of the claim "observe, gift/adjust, daily
reset": `observe` is `upsert_user`, `adjust` is `adjust_balance`, `gift` is the
whole `regalar` handler, `reset` is `do_daily_reset`. -/
inductive Op where
  | observe (chatId userId : Int) (username : Option String) (now : Int)
  | adjust (chatId userId delta : Int)
  | gift (chatId senderId : Int) (senderUname : Option String) (msg : Msg)
      (now day : Int) (k : Nat)
  | reset

/-- Runs one operation against the database. -/
def applyOp (db : DB) : Op → DB
  | Op.observe c u un now => upsert_user db c u un now
  | Op.adjust c u d => (adjust_balance db c u d).1
  | Op.gift c s un msg now day k => (regalar db c s un msg now day k).1
  | Op.reset => do_daily_reset db

/-- Runs a sequence of operations left to right. -/
def applyOps (db : DB) (ops : List Op) : DB :=
  ops.foldl applyOp db

/-- The ledger invariant: every stored balance is non-negative. -/
def nonNegBalances (db : DB) : Prop :=
  ∀ p ∈ db.users, 0 ≤ p.2.balance

instance (db : DB) : Decidable (nonNegBalances db) := by
  unfold nonNegBalances; infer_instance

/-! ### Association-list lemmas -/

theorem lookupA_cons {κ α : Type} [DecidableEq κ] (hd : κ × α) (t : List (κ × α)) (k : κ) :
    lookupA (hd :: t) k = if hd.1 = k then some hd.2 else lookupA t k := by
  obtain ⟨k', a⟩ := hd
  rfl

theorem lookupA_setA_self {κ α : Type} [DecidableEq κ] (l : List (κ × α)) (k : κ) (a : α) :
    lookupA (setA l k a) k = some a := by
  induction l with
  | nil => simp [lookupA, setA]
  | cons hd t ih =>
      obtain ⟨k', a'⟩ := hd
      by_cases h : k' = k
      · simp [setA, h, lookupA]
      · simp [setA, h, lookupA, ih]

theorem lookupA_setA_ne {κ α : Type} [DecidableEq κ] (l : List (κ × α)) (k k' : κ) (a : α)
    (h : k' ≠ k) : lookupA (setA l k a) k' = lookupA l k' := by
  induction l with
  | nil => simp [lookupA, setA, Ne.symm h]
  | cons hd t ih =>
      obtain ⟨k₀, a₀⟩ := hd
      by_cases hk : k₀ = k
      · subst hk
        simp [setA, lookupA, Ne.symm h]
      · simp only [setA, if_neg hk, lookupA]
        by_cases hk' : k₀ = k'
        · simp [hk']
        · simp [hk', ih]

theorem mem_setA {κ α : Type} [DecidableEq κ] (l : List (κ × α)) (k : κ) (a : α)
    (p : κ × α) (h : p ∈ setA l k a) : p = (k, a) ∨ p ∈ l := by
  induction l with
  | nil => simpa [setA] using h
  | cons hd t ih =>
      obtain ⟨k₀, a₀⟩ := hd
      by_cases hk : k₀ = k
      · subst hk
        rcases (by simpa [setA] using h : p = (k₀, a) ∨ p ∈ t) with h' | h'
        · exact Or.inl h'
        · exact Or.inr (List.mem_cons_of_mem _ h')
      · rcases (by simpa [setA, hk] using h : p = (k₀, a₀) ∨ p ∈ setA t k a) with h' | h'
        · exact Or.inr (by simp [h'])
        · rcases ih h' with h'' | h''
          · exact Or.inl h''
          · exact Or.inr (List.mem_cons_of_mem _ h'')

theorem lookupA_mem {κ α : Type} [DecidableEq κ] (l : List (κ × α)) (k : κ) (a : α)
    (h : lookupA l k = some a) : (k, a) ∈ l := by
  induction l with
  | nil => simp [lookupA] at h
  | cons hd t ih =>
      obtain ⟨k₀, a₀⟩ := hd
      by_cases hk : k₀ = k
      · subst hk
        have h' : some a₀ = some a := by simpa [lookupA] using h
        cases h'
        simp
      · simp only [lookupA, if_neg hk] at h
        exact List.mem_cons_of_mem _ (ih h)

theorem lookupA_append_some {κ α : Type} [DecidableEq κ] (l₁ l₂ : List (κ × α)) (k : κ)
    (a : α) (h : lookupA l₁ k = some a) : lookupA (l₁ ++ l₂) k = some a := by
  induction l₁ with
  | nil => simp [lookupA] at h
  | cons hd t ih =>
      obtain ⟨k₀, a₀⟩ := hd
      by_cases hk : k₀ = k
      · subst hk
        have h' : some a₀ = some a := by simpa [lookupA] using h
        cases h'
        simp [lookupA]
      · simp only [lookupA, if_neg hk] at h ⊢
        exact ih h

theorem lookupA_append_none {κ α : Type} [DecidableEq κ] (l₁ l₂ : List (κ × α)) (k : κ)
    (h : lookupA l₁ k = none) : lookupA (l₁ ++ l₂) k = lookupA l₂ k := by
  induction l₁ with
  | nil => rfl
  | cons hd t ih =>
      obtain ⟨k₀, a₀⟩ := hd
      by_cases hk : k₀ = k
      · subst hk
        simp [lookupA] at h
      · simp only [lookupA, if_neg hk] at h ⊢
        exact ih h

theorem lookupA_updateA_self {κ α : Type} [DecidableEq κ] (l : List (κ × α)) (k : κ)
    (f : α → α) : lookupA (updateA l k f) k = (lookupA l k).map f := by
  induction l with
  | nil => simp [lookupA, updateA]
  | cons hd t ih =>
      obtain ⟨k₀, a₀⟩ := hd
      by_cases hk : k₀ = k
      · subst hk
        simp [updateA, lookupA]
      · simp [updateA, hk, lookupA, ih]

theorem lookupA_updateA_ne {κ α : Type} [DecidableEq κ] (l : List (κ × α)) (k k' : κ)
    (f : α → α) (h : k' ≠ k) : lookupA (updateA l k f) k' = lookupA l k' := by
  induction l with
  | nil => simp [updateA]
  | cons hd t ih =>
      obtain ⟨k₀, a₀⟩ := hd
      by_cases hk : k₀ = k
      · subst hk
        simp [updateA, lookupA, Ne.symm h]
      · simp only [updateA, if_neg hk, lookupA]
        by_cases hk' : k₀ = k'
        · simp [hk']
        · simp [hk', ih]

theorem lookupA_insertIgnoreA_ne {κ α : Type} [DecidableEq κ] (l : List (κ × α)) (k k' : κ)
    (a : α) (h : k' ≠ k) : lookupA (insertIgnoreA l k a) k' = lookupA l k' := by
  unfold insertIgnoreA
  cases hl : lookupA l k with
  | some b => rfl
  | none =>
      show lookupA (l ++ [(k, a)]) k' = lookupA l k'
      cases hl' : lookupA l k' with
      | some b => exact lookupA_append_some _ _ _ _ hl'
      | none =>
          rw [lookupA_append_none _ _ _ hl']
          simp [lookupA, Ne.symm h]

theorem lookupA_insertIgnoreA_self {κ α : Type} [DecidableEq κ] (l : List (κ × α)) (k : κ)
    (a : α) : lookupA (insertIgnoreA l k a) k = some ((lookupA l k).getD a) := by
  unfold insertIgnoreA
  cases hl : lookupA l k with
  | some b => simp [hl]
  | none =>
      show lookupA (l ++ [(k, a)]) k = some (Option.getD none a)
      rw [lookupA_append_none _ _ _ hl]
      simp [lookupA]

theorem choose_mem {α : Type} (k : Nat) (l : List α) (x : α) (h : choose k l = some x) :
    x ∈ l :=
  List.getElem?_mem h

theorem lookupA_map_val {κ α : Type} [DecidableEq κ] (l : List (κ × α)) (k : κ)
    (f : α → α) : lookupA (l.map fun p => (p.1, f p.2)) k = (lookupA l k).map f := by
  induction l with
  | nil => simp [lookupA]
  | cons hd t ih =>
      obtain ⟨k₀, a₀⟩ := hd
      by_cases hk : k₀ = k
      · subst hk
        simp [lookupA]
      · simp [lookupA, hk, ih]

/-! ### Frame and effect lemmas for the store operations -/

theorem seen_user_eq (db : DB) (c u : Int) (un : Option String) (now : Int) :
    seen_user db c u un now = upsert_user db c u un now := rfl

theorem upsert_user_dailyStats (db : DB) (c u : Int) (un : Option String) (now : Int) :
    (upsert_user db c u un now).dailyStats = db.dailyStats := by
  unfold upsert_user
  split <;> rfl

theorem upsert_user_dailySelection (db : DB) (c u : Int) (un : Option String) (now : Int) :
    (upsert_user db c u un now).dailySelection = db.dailySelection := by
  unfold upsert_user
  split <;> rfl

theorem upsert_user_immune (db : DB) (c u : Int) (un : Option String) (now : Int) :
    (upsert_user db c u un now).immune = db.immune := by
  unfold upsert_user
  split <;> rfl

theorem upsert_user_balance_pres (db : DB) (c u : Int) (un : Option String) (now : Int)
    (c' u' : Int) (r : UserRec) (h : lookupA db.users (c', u') = some r) :
    ∃ r', lookupA (upsert_user db c u un now).users (c', u') = some r' ∧
      r'.balance = r.balance := by
  unfold upsert_user
  cases hcu : lookupA db.users (c, u) with
  | some r0 =>
      by_cases hk : (c', u') = (c, u)
      · refine ⟨{ r0 with username := un, lastSeen := now }, ?_, ?_⟩
        · dsimp only
          rw [hk]
          exact lookupA_setA_self db.users (c, u) _
        · rw [hk, hcu] at h
          cases h
          rfl
      · refine ⟨r, ?_, rfl⟩
        dsimp only
        rw [lookupA_setA_ne _ _ _ _ hk]
        exact h
  | none =>
      by_cases hk : (c', u') = (c, u)
      · rw [hk, hcu] at h
        cases h
      · refine ⟨r, ?_, rfl⟩
        dsimp only
        rw [lookupA_setA_ne _ _ _ _ hk]
        exact h

theorem nonNeg_upsert (db : DB) (c u : Int) (un : Option String) (now : Int)
    (h : nonNegBalances db) : nonNegBalances (upsert_user db c u un now) := by
  unfold upsert_user
  cases hcu : lookupA db.users (c, u) with
  | some r =>
      intro p hp
      rcases mem_setA _ _ _ _ hp with hp' | hp'
      · subst hp'
        have hb := h _ (lookupA_mem db.users (c, u) r hcu)
        simpa using hb
      · exact h _ hp'
  | none =>
      intro p hp
      rcases mem_setA _ _ _ _ hp with hp' | hp'
      · subst hp'
        norm_num [DAILY_START_BALANCE]
      · exact h _ hp'

theorem adjust_balance_dailyStats (db : DB) (c u δ : Int) :
    (adjust_balance db c u δ).1.dailyStats = db.dailyStats := by
  unfold adjust_balance
  split
  · rfl
  · dsimp only
    split <;> rfl

theorem adjust_balance_dailySelection (db : DB) (c u δ : Int) :
    (adjust_balance db c u δ).1.dailySelection = db.dailySelection := by
  unfold adjust_balance
  split
  · rfl
  · dsimp only
    split <;> rfl

theorem adjust_balance_immune (db : DB) (c u δ : Int) :
    (adjust_balance db c u δ).1.immune = db.immune := by
  unfold adjust_balance
  split
  · rfl
  · dsimp only
    split <;> rfl

theorem nonNeg_adjust (db : DB) (c u δ : Int) (h : nonNegBalances db) :
    nonNegBalances (adjust_balance db c u δ).1 := by
  unfold adjust_balance
  cases hcu : lookupA db.users (c, u) with
  | none => exact h
  | some r =>
      dsimp only
      split
      · exact h
      · rename_i hneg
        intro p hp
        rcases mem_setA _ _ _ _ hp with hp' | hp'
        · subst hp'
          dsimp only
          omega
        · exact h _ hp'

theorem ensure_stats_row_users (db : DB) (c u d : Int) :
    (ensure_stats_row db c u d).users = db.users := rfl

theorem ensure_stats_row_dailySelection (db : DB) (c u d : Int) :
    (ensure_stats_row db c u d).dailySelection = db.dailySelection := rfl

theorem ensure_stats_row_immune (db : DB) (c u d : Int) :
    (ensure_stats_row db c u d).immune = db.immune := rfl

theorem statGiven_ensure (db : DB) (c u d c' u' d' : Int) :
    statGiven (ensure_stats_row db c u d) c' u' d' = statGiven db c' u' d' := by
  unfold statGiven ensure_stats_row
  by_cases hk : (c', u', d') = (c, u, d)
  · rw [hk]
    dsimp only
    rw [lookupA_insertIgnoreA_self]
    cases lookupA db.dailyStats (c, u, d) <;> rfl
  · dsimp only
    rw [lookupA_insertIgnoreA_ne _ _ _ _ hk]

theorem statReceived_ensure (db : DB) (c u d c' u' d' : Int) :
    statReceived (ensure_stats_row db c u d) c' u' d' = statReceived db c' u' d' := by
  unfold statReceived ensure_stats_row
  by_cases hk : (c', u', d') = (c, u, d)
  · rw [hk]
    dsimp only
    rw [lookupA_insertIgnoreA_self]
    cases lookupA db.dailyStats (c, u, d) <;> rfl
  · dsimp only
    rw [lookupA_insertIgnoreA_ne _ _ _ _ hk]

theorem add_given_received_users (db : DB) (c g r a d : Int) :
    (add_given_received db c g r a d).users = db.users := rfl

theorem add_given_received_dailySelection (db : DB) (c g r a d : Int) :
    (add_given_received db c g r a d).dailySelection = db.dailySelection := rfl

theorem add_given_received_immune (db : DB) (c g r a d : Int) :
    (add_given_received db c g r a d).immune = db.immune := rfl

theorem statGiven_add_giver (db : DB) (c g r a d : Int) (h : g ≠ r) :
    statGiven (add_given_received db c g r a d) c g d = statGiven db c g d + a := by
  have hkey : (c, g, d) ≠ (c, r, d) := by simp [h]
  unfold statGiven add_given_received
  dsimp only
  rw [lookupA_updateA_ne _ _ _ _ hkey, lookupA_updateA_self,
    lookupA_insertIgnoreA_ne _ _ _ _ hkey, lookupA_insertIgnoreA_self]
  cases lookupA db.dailyStats (c, g, d) <;> rfl

theorem statReceived_add_recipient (db : DB) (c g r a d : Int) (h : g ≠ r) :
    statReceived (add_given_received db c g r a d) c r d = statReceived db c r d + a := by
  have hkey : (c, r, d) ≠ (c, g, d) := by simp [Ne.symm h]
  unfold statReceived add_given_received
  dsimp only
  rw [lookupA_updateA_self, lookupA_updateA_ne _ _ _ _ hkey, lookupA_insertIgnoreA_self,
    lookupA_insertIgnoreA_ne _ _ _ _ hkey]
  cases lookupA db.dailyStats (c, r, d) <;> rfl

theorem mark_selection_today_users (db : DB) (c u d : Int) :
    (mark_selection_today db c u d).users = db.users := by
  unfold mark_selection_today
  split <;> rfl

theorem mark_selection_today_dailyStats (db : DB) (c u d : Int) :
    (mark_selection_today db c u d).dailyStats = db.dailyStats := by
  unfold mark_selection_today
  split <;> rfl

theorem mark_selection_today_immune (db : DB) (c u d : Int) :
    (mark_selection_today db c u d).immune = db.immune := by
  unfold mark_selection_today
  split <;> rfl

theorem mem_mark_selection_today (db : DB) (c u d : Int) :
    (c, d, u) ∈ (mark_selection_today db c u d).dailySelection := by
  unfold mark_selection_today
  split
  · assumption
  · simp

theorem get_received_today_eq (db : DB) (c u d : Int) :
    get_received_today db c u d = statReceived db c u d := by
  unfold get_received_today statReceived
  cases lookupA db.dailyStats (c, u, d) <;> rfl

theorem is_user_immune_congr (db db' : DB) (c : Int) (uid : Option Int)
    (un : Option String) (h : db'.immune = db.immune) :
    is_user_immune db' c uid un = is_user_immune db c uid un := by
  unfold is_user_immune
  rw [h]

theorem statGiven_congr (db db' : DB) (c u d : Int) (h : db'.dailyStats = db.dailyStats) :
    statGiven db' c u d = statGiven db c u d := by
  unfold statGiven
  rw [h]

theorem statReceived_congr (db db' : DB) (c u d : Int) (h : db'.dailyStats = db.dailyStats) :
    statReceived db' c u d = statReceived db c u d := by
  unfold statReceived
  rw [h]

theorem mem_get_recent_users (db : DB) (c now uid : Int) (un : String)
    (h : (uid, un) ∈ get_recent_users db c now) :
    is_user_immune db c (some uid) (some un) = false ∧
      ∃ r : UserRec, ((c, uid), r) ∈ db.users ∧
        now - RECENT_DAYS_WINDOW ≤ r.lastSeen ∧ un = r.username.getD "" := by
  unfold get_recent_users at h
  rw [List.mem_filter] at h
  obtain ⟨hmem, himm⟩ := h
  constructor
  · simpa using himm
  · rw [List.mem_filterMap] at hmem
    obtain ⟨p, hp, hval⟩ := hmem
    by_cases hcond : p.1.1 = c ∧ now - RECENT_DAYS_WINDOW ≤ p.2.lastSeen
    · rw [if_pos hcond] at hval
      obtain ⟨h1, h2⟩ := hcond
      refine ⟨p.2, ?_, ?_, ?_⟩
      · have : (c, uid) = p.1 := by
          cases hval
          exact Prod.ext h1.symm rfl
        rw [this]
        exact hp
      · exact h2
      · cases hval
        rfl
    · rw [if_neg hcond] at hval
      cases hval

theorem nonNeg_of_users_eq (db db' : DB) (h : db'.users = db.users)
    (hn : nonNegBalances db) : nonNegBalances db' := by
  unfold nonNegBalances at *
  rw [h]
  exact hn

theorem nonNeg_reset (db : DB) : nonNegBalances (do_daily_reset db) := by
  intro p hp
  obtain ⟨q, _, rfl⟩ := List.mem_map.mp hp
  norm_num [DAILY_START_BALANCE]

/-! ### The target resolver -/

theorem resolve_fst (db : DB) (c : Int) (msg : Msg) (now : Int) :
    (resolve_target_from_update db c msg now).1 = db ∨
      ∃ uid un, msg.replyAuthor = some (uid, un) ∧
        (resolve_target_from_update db c msg now).1 = seen_user db c uid un now := by
  unfold resolve_target_from_update
  cases h : msg.replyAuthor with
  | some p =>
      obtain ⟨uid, un⟩ := p
      exact Or.inr ⟨uid, un, rfl, rfl⟩
  | none =>
      left
      dsimp only
      split
      · rfl
      · split <;> rfl

theorem resolve_dailyStats (db : DB) (c : Int) (msg : Msg) (now : Int) :
    (resolve_target_from_update db c msg now).1.dailyStats = db.dailyStats := by
  rcases resolve_fst db c msg now with h | ⟨uid, un, _, h⟩
  · rw [h]
  · rw [h, seen_user_eq, upsert_user_dailyStats]

theorem resolve_dailySelection (db : DB) (c : Int) (msg : Msg) (now : Int) :
    (resolve_target_from_update db c msg now).1.dailySelection = db.dailySelection := by
  rcases resolve_fst db c msg now with h | ⟨uid, un, _, h⟩
  · rw [h]
  · rw [h, seen_user_eq, upsert_user_dailySelection]

theorem resolve_immune (db : DB) (c : Int) (msg : Msg) (now : Int) :
    (resolve_target_from_update db c msg now).1.immune = db.immune := by
  rcases resolve_fst db c msg now with h | ⟨uid, un, _, h⟩
  · rw [h]
  · rw [h, seen_user_eq, upsert_user_immune]

theorem resolve_balance_pres (db : DB) (c : Int) (msg : Msg) (now : Int)
    (c' u' : Int) (r : UserRec) (h : lookupA db.users (c', u') = some r) :
    ∃ r', lookupA (resolve_target_from_update db c msg now).1.users (c', u') = some r' ∧
      r'.balance = r.balance := by
  rcases resolve_fst db c msg now with h0 | ⟨uid, un, _, h0⟩
  · exact ⟨r, by rw [h0]; exact h, rfl⟩
  · rw [h0, seen_user_eq]
    exact upsert_user_balance_pres db c uid un now c' u' r h

theorem nonNeg_resolve (db : DB) (c : Int) (msg : Msg) (now : Int)
    (h : nonNegBalances db) :
    nonNegBalances (resolve_target_from_update db c msg now).1 := by
  rcases resolve_fst db c msg now with h0 | ⟨uid, un, _, h0⟩
  · rw [h0]; exact h
  · rw [h0, seen_user_eq]; exact nonNeg_upsert _ _ _ _ _ h

/-! ### Handler-level lemmas -/

theorem regalar_bounce_users (db : DB) (c destId : Int) (destUname : String)
    (amount day now : Int) (k : Nat) :
    (regalar_bounce db c destId destUname amount day now k).1.users = db.users := by
  unfold regalar_bounce
  dsimp only
  split
  · split
    · split
      · rfl
      · split
        · simp [mark_selection_today_users, ensure_stats_row_users]
        · rfl
    · simp [mark_selection_today_users, ensure_stats_row_users]
  · rfl

theorem regalar_core_nonNeg (db : DB) (c s : Int) (un : Option String) (msg : Msg)
    (now day : Int) (h : nonNegBalances db) :
    nonNegBalances (regalar_core db c s un msg now day).1 := by
  have h0 : nonNegBalances (seen_user db c s un now) := nonNeg_upsert _ _ _ _ _ h
  have h1 : nonNegBalances (resolve_target_from_update (seen_user db c s un now) c msg now).1 :=
    nonNeg_resolve _ _ _ _ h0
  unfold regalar_core
  dsimp only
  split
  · exact h1
  · exact h1
  · split
    · exact h1
    · split
      · exact h1
      · split
        · exact nonNeg_of_users_eq _ _ rfl (nonNeg_adjust _ _ _ _ h1)
        · exact nonNeg_of_users_eq _ _ rfl (nonNeg_adjust _ _ _ _ h1)

theorem regalar_nonNeg (db : DB) (c s : Int) (un : Option String) (msg : Msg)
    (now day : Int) (k : Nat) (h : nonNegBalances db) :
    nonNegBalances (regalar db c s un msg now day k).1 := by
  unfold regalar
  dsimp only
  split
  · exact regalar_core_nonNeg db c s un msg now day h
  · exact nonNeg_of_users_eq _ _ (regalar_bounce_users _ _ _ _ _ _ _ _)
      (regalar_core_nonNeg db c s un msg now day h)

theorem balanceOf_users_eq (db db' : DB) (h : db'.users = db.users) (c u : Int) :
    balanceOf db' c u = balanceOf db c u := by
  unfold balanceOf
  rw [h]

theorem upsert_user_lookup_self (db : DB) (c u : Int) (un : Option String) (now : Int) :
    ∃ r, lookupA (upsert_user db c u un now).users (c, u) = some r := by
  unfold upsert_user
  cases lookupA db.users (c, u) with
  | some r0 => exact ⟨_, lookupA_setA_self _ _ _⟩
  | none => exact ⟨_, lookupA_setA_self _ _ _⟩

theorem adjust_balance_success (db : DB) (c u δ : Int) (r : UserRec)
    (h : lookupA db.users (c, u) = some r) (hge : 0 ≤ r.balance + δ) :
    adjust_balance db c u δ =
      ({ db with users := setA db.users (c, u) ({ r with balance := r.balance + δ }) },
        true, r.balance + δ) := by
  unfold adjust_balance
  rw [h]
  dsimp only
  rw [if_neg (by omega)]

theorem adjust_balance_fail_fst (db : DB) (c u δ : Int)
    (h : (adjust_balance db c u δ).2.1 = false) : (adjust_balance db c u δ).1 = db := by
  cases hcu : lookupA db.users (c, u) with
  | none =>
      unfold adjust_balance
      rw [hcu]
  | some r =>
      unfold adjust_balance at h ⊢
      rw [hcu] at h ⊢
      dsimp only at h ⊢
      by_cases hlt : r.balance + δ < 0
      · rw [if_pos hlt]
      · rw [if_neg hlt] at h
        cases h

theorem caller_exists_after_resolve (db : DB) (c sid : Int) (sun : Option String)
    (msg : Msg) (now : Int) :
    ∃ r1, lookupA (resolve_target_from_update (seen_user db c sid sun now) c msg now).1.users
      (c, sid) = some r1 := by
  obtain ⟨r0, h0⟩ := upsert_user_lookup_self db c sid sun now
  obtain ⟨r1, h1, _⟩ :=
    resolve_balance_pres (seen_user db c sid sun now) c msg now c sid r0 h0
  exact ⟨r1, h1⟩

theorem resolve_none_fst (db : DB) (c : Int) (msg : Msg) (now : Int)
    (h : (resolve_target_from_update db c msg now).2 = none) :
    (resolve_target_from_update db c msg now).1 = db := by
  cases hr : msg.replyAuthor with
  | some p =>
      obtain ⟨uid, un⟩ := p
      unfold resolve_target_from_update at h
      rw [hr] at h
      cases h
  | none =>
      unfold resolve_target_from_update
      rw [hr]
      dsimp only
      split
      · rfl
      · split <;> rfl

/-- Case analysis of the transfer part of `regalar`: either the gift is
rejected with a single usage / self-gift / insufficient-funds reply and the
database is the observed-only state, or every check passed and the debit and
the two counter increments were applied. -/
theorem regalar_core_split (db : DB) (c sid : Int) (sun : Option String) (msg : Msg)
    (now day : Int) :
    (∃ rep, (rep = Reply.usage ∨ rep = Reply.selfGift ∨ ∃ b, rep = Reply.insufficient b) ∧
      regalar_core db c sid sun msg now day =
        ((resolve_target_from_update (seen_user db c sid sun now) c msg now).1, none, [rep]) ∧
      (∀ b, rep = Reply.insufficient b →
        balanceOf (resolve_target_from_update (seen_user db c sid sun now) c msg now).1 c sid
          = some b)) ∨
    (∃ destId destUn amount,
      (resolve_target_from_update (seen_user db c sid sun now) c msg now).2
        = some (destId, destUn) ∧
      msg.numTokens.getLast? = some amount ∧ 0 < amount ∧ destId ≠ sid ∧
      (adjust_balance (resolve_target_from_update (seen_user db c sid sun now) c msg now).1
        c sid (-amount)).2.1 = true ∧
      regalar_core db c sid sun msg now day =
        (add_given_received
            (ensure_stats_row
              (ensure_stats_row
                (adjust_balance
                  (resolve_target_from_update (seen_user db c sid sun now) c msg now).1
                  c sid (-amount)).1
                c sid day)
              c destId day)
            c sid destId amount day,
          some (destId, destUn, amount),
          [Reply.gifted amount
            (adjust_balance
              (resolve_target_from_update (seen_user db c sid sun now) c msg now).1
              c sid (-amount)).2.2
            destId])) := by
  unfold regalar_core
  dsimp only
  split
  · left
    exact ⟨Reply.usage, Or.inl rfl, rfl, fun b hb => Reply.noConfusion hb⟩
  · left
    exact ⟨Reply.usage, Or.inl rfl, rfl, fun b hb => Reply.noConfusion hb⟩
  · rename_i s1 s2 destId destUn amount hres hamt
    split
    · left
      exact ⟨Reply.usage, Or.inl rfl, rfl, fun b hb => Reply.noConfusion hb⟩
    · rename_i hle
      split
      · rename_i hself
        left
        exact ⟨Reply.selfGift, Or.inr (Or.inl rfl), rfl, fun b hb => Reply.noConfusion hb⟩
      · rename_i hself
        split
        · rename_i hfail
          left
          obtain ⟨r1, hr1⟩ := caller_exists_after_resolve db c sid sun msg now
          have haf := adjust_balance_fail_fst
            (resolve_target_from_update (seen_user db c sid sun now) c msg now).1
            c sid (-amount) hfail
          refine ⟨Reply.insufficient r1.balance,
            Or.inr (Or.inr ⟨r1.balance, rfl⟩), ?_, ?_⟩
          · rw [haf, hr1]
          · intro b hb
            cases hb
            unfold balanceOf
            rw [hr1]
            rfl
        · rename_i hfail
          rw [Bool.not_eq_false] at hfail
          right
          exact ⟨destId, destUn, amount, hres, hamt, by omega, hself, hfail, rfl⟩

/-! ### Claim theorems -/

/-- C1: for every chat and user the stored balance is never negative after any
sequence of operations — observing a user (creation happens with balance
`DAILY_START_BALANCE = 75`), adjusting a balance (a delta that would go
negative is rejected and the balance left unchanged), running the whole gift
handler, and the daily reset (every balance set to 75). -/
theorem C1_balance_never_negative (db : DB) (ops : List Op) (h : nonNegBalances db) :
    nonNegBalances (applyOps db ops) := by
  induction ops generalizing db with
  | nil => exact h
  | cons op t ih =>
      refine ih _ ?_
      cases op with
      | observe c u un now => exact nonNeg_upsert _ _ _ _ _ h
      | adjust c u d => exact nonNeg_adjust _ _ _ _ h
      | gift c s un msg now day k => exact regalar_nonNeg _ _ _ _ _ _ _ _ h
      | reset => exact nonNeg_reset _

/-- Witness for C1 at a concrete run: an empty store, one observation, two
rejected debits, one gift attempt and a reset keep every balance non-negative. -/
theorem C1_balance_never_negative_witness :
    nonNegBalances (applyOps ⟨[], [], [], []⟩
      [Op.observe 1 2 (some "alice") 0, Op.adjust 1 2 (-100), Op.adjust 1 2 (-50),
       Op.gift 1 3 (some "bob") ⟨some (2, some "alice"), none, [], [10]⟩ 0 0 0,
       Op.reset]) :=
  C1_balance_never_negative _ _ (by decide)

/-- C2: for an existing user with balance `b`, `adjust_balance` computes
`new = b + delta`; when `new < 0` it fails, returns the unchanged balance and
leaves the whole database (hence the stored balance) untouched; otherwise it
commits `new` as the stored balance, returns it, and changes no other user row. -/
theorem C2_adjust_balance_spec (db : DB) (c u : Int) (r : UserRec) (δ : Int)
    (h : lookupA db.users (c, u) = some r) :
    (r.balance + δ < 0 → adjust_balance db c u δ = (db, false, r.balance)) ∧
    (0 ≤ r.balance + δ →
      (adjust_balance db c u δ).2 = (true, r.balance + δ) ∧
      balanceOf (adjust_balance db c u δ).1 c u = some (r.balance + δ) ∧
      ∀ k', k' ≠ (c, u) →
        lookupA (adjust_balance db c u δ).1.users k' = lookupA db.users k') := by
  constructor
  · intro hneg
    unfold adjust_balance
    rw [h]
    dsimp only
    rw [if_pos hneg]
  · intro hpos
    have key : adjust_balance db c u δ =
        ({ db with users := setA db.users (c, u) ({ r with balance := r.balance + δ }) },
          true, r.balance + δ) := by
      unfold adjust_balance
      rw [h]
      dsimp only
      rw [if_neg (by omega)]
    rw [key]
    refine ⟨rfl, ?_, ?_⟩
    · unfold balanceOf
      dsimp only
      rw [lookupA_setA_self]
      rfl
    · intro k' hk'
      dsimp only
      exact lookupA_setA_ne _ _ _ _ hk'

/-- Witness for C2: a balance of 5 rejects a debit of 10 and is left unchanged. -/
theorem C2_adjust_balance_spec_witness :
    adjust_balance ⟨[((1, 2), ⟨some "bob", 0, 5⟩)], [], [], []⟩ 1 2 (-10)
      = (⟨[((1, 2), ⟨some "bob", 0, 5⟩)], [], [], []⟩, false, 5) :=
  (C2_adjust_balance_spec ⟨[((1, 2), ⟨some "bob", 0, 5⟩)], [], [], []⟩ 1 2
      ⟨some "bob", 0, 5⟩ (-10) (by decide)).1 (by decide)

/-- C3: a successful gift of a positive amount from a caller to a distinct
resolved target, with the caller's balance at least the amount, decreases the
caller's balance by exactly the amount and increases the caller's `given` and
the target's `received` for the day by exactly the amount, all in the same
post-transfer state (the SQL statements run inside one handler invocation);
the success reply reports the debited balance. -/
theorem C3_gift_success_spec (db : DB) (c sid : Int) (sun : Option String) (msg : Msg)
    (now day : Int) (destId : Int) (destUn : String) (amount : Int) (r : UserRec)
    (hres : (resolve_target_from_update (seen_user db c sid sun now) c msg now).2
      = some (destId, destUn))
    (hamt : msg.numTokens.getLast? = some amount)
    (hpos : 0 < amount) (hne : destId ≠ sid)
    (h0 : lookupA db.users (c, sid) = some r) (hge : amount ≤ r.balance) :
    balanceOf (regalar_core db c sid sun msg now day).1 c sid
      = some (r.balance - amount) ∧
    statGiven (regalar_core db c sid sun msg now day).1 c sid day
      = statGiven db c sid day + amount ∧
    statReceived (regalar_core db c sid sun msg now day).1 c destId day
      = statReceived db c destId day + amount ∧
    (regalar_core db c sid sun msg now day).2.2
      = [Reply.gifted amount (r.balance - amount) destId] := by
  obtain ⟨r0, hr0, hb0⟩ := upsert_user_balance_pres db c sid sun now c sid r h0
  obtain ⟨r1, hr1, hb1⟩ :=
    resolve_balance_pres (seen_user db c sid sun now) c msg now c sid r0 hr0
  have hadj := adjust_balance_success
    (resolve_target_from_update (seen_user db c sid sun now) c msg now).1 c sid (-amount)
    r1 hr1 (by omega)
  have hst : (resolve_target_from_update (seen_user db c sid sun now) c msg now).1.dailyStats
      = db.dailyStats := by
    rw [resolve_dailyStats, seen_user_eq, upsert_user_dailyStats]
  have hbalval : r1.balance + -amount = r.balance - amount := by omega
  unfold regalar_core
  dsimp only
  split
  · rename_i heq
    rw [hres] at heq
    cases heq
  · rename_i heq1 heq2
    rw [hamt] at heq2
    cases heq2
  · rename_i s1 s2 destId' destUn' amount' heq1 heq2
    rw [hres] at heq1
    rw [hamt] at heq2
    cases heq1
    cases heq2
    split
    · rename_i hle
      exact absurd hle (by omega)
    · rename_i hle
      split
      · rename_i hfail
        rw [hadj] at hfail
        simp at hfail
      · rename_i hfail
        rw [hadj]
        dsimp only
        refine ⟨?_, ?_, ?_, ?_⟩
        · show (lookupA
              (setA (resolve_target_from_update (seen_user db c sid sun now) c msg now).1.users
                (c, sid) ({ r1 with balance := r1.balance + -amount }))
              (c, sid)).map UserRec.balance = some (r.balance - amount)
          rw [lookupA_setA_self]
          simp only [Option.map_some']
          exact congrArg some hbalval
        · rw [statGiven_add_giver _ _ _ _ _ _ (Ne.symm hne), statGiven_ensure,
            statGiven_ensure]
          have hcg := statGiven_congr db
            { (resolve_target_from_update (seen_user db c sid sun now) c msg now).1 with
              users := setA
                (resolve_target_from_update (seen_user db c sid sun now) c msg now).1.users
                (c, sid) ({ r1 with balance := r1.balance + -amount }) }
            c sid day hst
          rw [hcg]
        · rw [statReceived_add_recipient _ _ _ _ _ _ (Ne.symm hne), statReceived_ensure,
            statReceived_ensure]
          have hcg := statReceived_congr db
            { (resolve_target_from_update (seen_user db c sid sun now) c msg now).1 with
              users := setA
                (resolve_target_from_update (seen_user db c sid sun now) c msg now).1.users
                (c, sid) ({ r1 with balance := r1.balance + -amount }) }
            c destId day hst
          rw [hcg]
        · rw [hbalval]

/-- Witness for C3: a fresh caller holding 75 gifts 10 to a replied-to target;
the balance becomes 65 and both day counters gain 10. -/
theorem C3_gift_success_spec_witness :
    balanceOf (regalar_core ⟨[((1, 10), ⟨some "alice", 0, 75⟩), ((1, 2), ⟨some "bob", 0, 75⟩)],
        [], [], []⟩ 1 10 (some "alice") ⟨some (2, some "bob"), none, [], [10]⟩ 0 5).1 1 10
      = some 65 ∧
    statReceived (regalar_core ⟨[((1, 10), ⟨some "alice", 0, 75⟩), ((1, 2), ⟨some "bob", 0, 75⟩)],
        [], [], []⟩ 1 10 (some "alice") ⟨some (2, some "bob"), none, [], [10]⟩ 0 5).1 1 2 5
      = 0 + 10 := by
  have h := C3_gift_success_spec
    ⟨[((1, 10), ⟨some "alice", 0, 75⟩), ((1, 2), ⟨some "bob", 0, 75⟩)], [], [], []⟩
    1 10 (some "alice") ⟨some (2, some "bob"), none, [], [10]⟩ 0 5 2 "bob" 10
    ⟨some "alice", 0, 75⟩ (by decide) (by decide) (by decide) (by decide) (by decide)
    (by decide)
  exact ⟨h.1, h.2.2.1⟩

/-- C4: a gift attempt rejected for a usage error (unresolvable target or bad
amount), a self-gift, or insufficient funds leaves every existing user's
balance unchanged and the whole `daily_stats` and `daily_selection` tables
untouched; the insufficient-funds reply reports the caller's current balance. -/
theorem C4_gift_reject_spec (db : DB) (c sid : Int) (sun : Option String) (msg : Msg)
    (now day : Int) (k : Nat) (db' : DB) (rs : List Reply)
    (hrun : regalar db c sid sun msg now day k = (db', rs))
    (hrej : rs = [Reply.usage] ∨ rs = [Reply.selfGift] ∨ ∃ b, rs = [Reply.insufficient b]) :
    db'.dailyStats = db.dailyStats ∧
    db'.dailySelection = db.dailySelection ∧
    (∀ c' u' r, lookupA db.users (c', u') = some r →
      ∃ r', lookupA db'.users (c', u') = some r' ∧ r'.balance = r.balance) ∧
    (∀ b, rs = [Reply.insufficient b] → balanceOf db' c sid = some b) := by
  rcases regalar_core_split db c sid sun msg now day with
    ⟨rep, _, hcore, hbal⟩ | ⟨destId, destUn, amount, _, _, _, _, _, hcore⟩
  · have hreg : regalar db c sid sun msg now day k =
        ((resolve_target_from_update (seen_user db c sid sun now) c msg now).1, [rep]) := by
      unfold regalar
      rw [hcore]
    rw [hreg] at hrun
    injection hrun with h1 h2
    subst h1
    subst h2
    refine ⟨?_, ?_, ?_, ?_⟩
    · rw [resolve_dailyStats, seen_user_eq, upsert_user_dailyStats]
    · rw [resolve_dailySelection, seen_user_eq, upsert_user_dailySelection]
    · intro c' u' r hr
      obtain ⟨r0, hr0, hb0⟩ := upsert_user_balance_pres db c sid sun now c' u' r hr
      obtain ⟨r1, hr1, hb1⟩ :=
        resolve_balance_pres (seen_user db c sid sun now) c msg now c' u' r0 hr0
      exact ⟨r1, hr1, hb1.trans hb0⟩
    · intro b hb
      injection hb with hb1 _
      exact hbal b hb1
  · exfalso
    have hreg : regalar db c sid sun msg now day k =
        ((regalar_bounce
            (add_given_received
              (ensure_stats_row
                (ensure_stats_row
                  (adjust_balance
                    (resolve_target_from_update (seen_user db c sid sun now) c msg now).1
                    c sid (-amount)).1
                  c sid day)
                c destId day)
              c sid destId amount day)
            c destId destUn amount day now k).1,
          Reply.gifted amount
              (adjust_balance
                (resolve_target_from_update (seen_user db c sid sun now) c msg now).1
                c sid (-amount)).2.2
              destId ::
            (regalar_bounce
              (add_given_received
                (ensure_stats_row
                  (ensure_stats_row
                    (adjust_balance
                      (resolve_target_from_update (seen_user db c sid sun now) c msg now).1
                      c sid (-amount)).1
                    c sid day)
                  c destId day)
                c sid destId amount day)
              c destId destUn amount day now k).2) := by
      unfold regalar
      rw [hcore]
      rfl
    rw [hreg] at hrun
    injection hrun with _ h2
    rcases hrej with h | h | ⟨b, h⟩ <;>
      · rw [← h2] at h
        injection h with hhd _
        exact Reply.noConfusion hhd

/-- Witness for C4: a caller holding 5 tries to gift 10; the reply reports the
unchanged balance 5 and the stats stay empty. -/
theorem C4_gift_reject_spec_witness :
    (regalar ⟨[((1, 10), ⟨some "alice", 0, 5⟩), ((1, 2), ⟨some "bob", 0, 75⟩)], [], [], []⟩
        1 10 (some "alice") ⟨some (2, some "bob"), none, [], [10]⟩ 0 5 0).1.dailyStats
      = [] ∧
    balanceOf (regalar ⟨[((1, 10), ⟨some "alice", 0, 5⟩), ((1, 2), ⟨some "bob", 0, 75⟩)],
        [], [], []⟩ 1 10 (some "alice") ⟨some (2, some "bob"), none, [], [10]⟩ 0 5 0).1 1 10
      = some 5 := by
  have h := C4_gift_reject_spec
    ⟨[((1, 10), ⟨some "alice", 0, 5⟩), ((1, 2), ⟨some "bob", 0, 75⟩)], [], [], []⟩
    1 10 (some "alice") ⟨some (2, some "bob"), none, [], [10]⟩ 0 5 0
    (regalar ⟨[((1, 10), ⟨some "alice", 0, 5⟩), ((1, 2), ⟨some "bob", 0, 75⟩)], [], [], []⟩
      1 10 (some "alice") ⟨some (2, some "bob"), none, [], [10]⟩ 0 5 0).1
    (regalar ⟨[((1, 10), ⟨some "alice", 0, 5⟩), ((1, 2), ⟨some "bob", 0, 75⟩)], [], [], []⟩
      1 10 (some "alice") ⟨some (2, some "bob"), none, [], [10]⟩ 0 5 0).2
    rfl (by right; right; exact ⟨5, by decide⟩)
  exact ⟨h.1, h.2.2.2 5 (by decide)⟩

theorem statReceived_mark (db : DB) (c u d c' u' d' : Int) :
    statReceived (mark_selection_today db c u d) c' u' d' = statReceived db c' u' d' :=
  statReceived_congr db _ c' u' d' (mark_selection_today_dailyStats db c u d)

theorem bounce_dest_received (l : List ((Int × Int × Int) × StatRec))
    (c destId altId amount day : Int) (hne : altId ≠ destId) (hpos : 0 < amount) :
    ((lookupA (updateA (updateA (insertIgnoreA l (c, altId, day) ⟨0, 0⟩) (c, destId, day)
          fun s => { s with received := if amount ≤ s.received then s.received - amount else 0 })
        (c, altId, day) fun s => { s with received := s.received + amount })
      (c, destId, day)).map StatRec.received).getD 0
    = (((lookupA l (c, destId, day)).map StatRec.received).getD 0)
      - min amount (((lookupA l (c, destId, day)).map StatRec.received).getD 0) := by
  have hk1 : ((c : Int), destId, day) ≠ (c, altId, day) := by simp [Ne.symm hne]
  rw [lookupA_updateA_ne _ _ _ _ hk1, lookupA_updateA_self,
    lookupA_insertIgnoreA_ne _ _ _ _ hk1]
  cases lookupA l (c, destId, day) with
  | none =>
      simp only [Option.map_none', Option.getD_none]
      omega
  | some s =>
      simp only [Option.map_some', Option.getD_some]
      split <;> omega

theorem bounce_alt_received (l : List ((Int × Int × Int) × StatRec))
    (c destId altId amount day : Int) (hne : altId ≠ destId) :
    ((lookupA (updateA (updateA (insertIgnoreA l (c, altId, day) ⟨0, 0⟩) (c, destId, day)
          fun s => { s with received := if amount ≤ s.received then s.received - amount else 0 })
        (c, altId, day) fun s => { s with received := s.received + amount })
      (c, altId, day)).map StatRec.received).getD 0
    = (((lookupA l (c, altId, day)).map StatRec.received).getD 0) + amount := by
  have hk2 : ((c : Int), altId, day) ≠ (c, destId, day) := by simp [hne]
  rw [lookupA_updateA_self, lookupA_updateA_ne _ _ _ _ hk2, lookupA_insertIgnoreA_self]
  cases lookupA l (c, altId, day) with
  | none => simp
  | some s => simp

/-- C5: when a gift pushed an immune recipient to the alert threshold and a
substitute was drawn, the recipient's `received` drops by `min(amount,
received)` (never below zero), the substitute's `received` grows by exactly
`amount`, the two counters together change by `amount - min(amount,
received)`, and no user row (hence no ledger balance) changes. -/
theorem C5_bounce_spec (db : DB) (c destId : Int) (destUn : String)
    (amount day now : Int) (k : Nat) (altId : Int) (altUn : String)
    (hpos : 0 < amount)
    (hthr : ALERT_THRESHOLD ≤ get_received_today db c destId day)
    (himm : is_user_immune db c (some destId) (some destUn) = true)
    (halt : choose k ((get_recent_users db c now).filter fun q => q.1 != destId)
      = some (altId, altUn)) :
    (regalar_bounce db c destId destUn amount day now k).1.users = db.users ∧
    statReceived (regalar_bounce db c destId destUn amount day now k).1 c destId day
      = statReceived db c destId day - min amount (statReceived db c destId day) ∧
    statReceived (regalar_bounce db c destId destUn amount day now k).1 c altId day
      = statReceived db c altId day + amount ∧
    statReceived (regalar_bounce db c destId destUn amount day now k).1 c destId day
        + statReceived (regalar_bounce db c destId destUn amount day now k).1 c altId day
      = statReceived db c destId day + statReceived db c altId day
        + (amount - min amount (statReceived db c destId day)) ∧
    0 ≤ statReceived (regalar_bounce db c destId destUn amount day now k).1 c destId day := by
  have hmem := choose_mem _ _ _ halt
  rw [List.mem_filter] at hmem
  have hne : altId ≠ destId := by simpa using hmem.2
  have hstats : (regalar_bounce db c destId destUn amount day now k).1.dailyStats
      = updateA (updateA (insertIgnoreA db.dailyStats (c, altId, day) ⟨0, 0⟩) (c, destId, day)
          fun s => { s with received := if amount ≤ s.received then s.received - amount else 0 })
        (c, altId, day) fun s => { s with received := s.received + amount } := by
    unfold regalar_bounce
    dsimp only
    rw [if_pos hthr, if_pos himm]
    split
    · rename_i heq
      rw [halt] at heq
      cases heq
    · rename_i a' u' heq
      rw [halt] at heq
      cases heq
      split
      · exact (mark_selection_today_dailyStats _ _ _ _).trans rfl
      · rfl
  have hd : statReceived (regalar_bounce db c destId destUn amount day now k).1 c destId day
      = statReceived db c destId day - min amount (statReceived db c destId day) := by
    unfold statReceived
    rw [hstats]
    exact bounce_dest_received db.dailyStats c destId altId amount day hne hpos
  have ha : statReceived (regalar_bounce db c destId destUn amount day now k).1 c altId day
      = statReceived db c altId day + amount := by
    unfold statReceived
    rw [hstats]
    exact bounce_alt_received db.dailyStats c destId altId amount day hne
  exact ⟨regalar_bounce_users db c destId destUn amount day now k, hd, ha,
    by omega, by omega⟩

/-- Witness for C5: an immune recipient at 25 received bounces a gift of 10 to
the only other active user: 25 becomes 15, the substitute gets 10. -/
theorem C5_bounce_spec_witness :
    statReceived (regalar_bounce ⟨[((1, 2), ⟨some "bob", 0, 75⟩), ((1, 3), ⟨some "carol", 0, 75⟩)],
        [((1, 2, 5), ⟨0, 25⟩)], [], [⟨1, some 2, none⟩]⟩ 1 2 "bob" 10 5 0 0).1 1 2 5
      = 25 - min 10 25 ∧
    statReceived (regalar_bounce ⟨[((1, 2), ⟨some "bob", 0, 75⟩), ((1, 3), ⟨some "carol", 0, 75⟩)],
        [((1, 2, 5), ⟨0, 25⟩)], [], [⟨1, some 2, none⟩]⟩ 1 2 "bob" 10 5 0 0).1 1 3 5
      = 0 + 10 := by
  have h := C5_bounce_spec
    ⟨[((1, 2), ⟨some "bob", 0, 75⟩), ((1, 3), ⟨some "carol", 0, 75⟩)],
      [((1, 2, 5), ⟨0, 25⟩)], [], [⟨1, some 2, none⟩]⟩
    1 2 "bob" 10 5 0 0 3 "carol" (by decide) (by decide) (by decide) (by decide)
  exact ⟨h.2.1, h.2.2.1⟩

/-- C6 counterexample: `randomdown` marks the resolved target as chosen with no
immunity check, so an immune user (here immune by id in the chat) is recorded
as chosen, refuting the claim for `randomdown`. -/
theorem C6_counterexample :
    is_user_immune ⟨[((1, 100), ⟨none, 0, 75⟩)], [], [], [⟨1, some 100, none⟩]⟩ 1 (some 100)
        (some "") = true ∧
    (1, 0, 100) ∈ (randomdown ⟨[((1, 100), ⟨none, 0, 75⟩)], [], [], [⟨1, some 100, none⟩]⟩ 1
        ⟨some (100, none), none, [], []⟩ 0 0 0).1.dailySelection := by
  decide

/-- C6 (amended): for the `down` command the user recorded as chosen is never
immune (by id or case-insensitive username) and was seen within
`RECENT_DAYS_WINDOW`; `randomdown` marks whatever target resolution returned,
with no immunity or recency filter. -/
theorem C6_down_no_immune_recent (db : DB) (c sid : Int) (sun : Option String)
    (now day : Int) (k : Nat) (uid : Int) (un : String)
    (h : (down db c sid sun now day k).2 = some (uid, un)) :
    is_user_immune db c (some uid) (some un) = false ∧
    (∃ r : UserRec, ((c, uid), r) ∈ (seen_user db c sid sun now).users ∧
      now - RECENT_DAYS_WINDOW ≤ r.lastSeen) ∧
    (c, day, uid) ∈ (down db c sid sun now day k).1.dailySelection := by
  cases hch : choose k (get_recent_users (seen_user db c sid sun now) c now) with
  | none =>
      have hnone : (down db c sid sun now day k).2 = none := by
        unfold down
        dsimp only
        rw [hch]
      rw [h] at hnone
      cases hnone
  | some p =>
      obtain ⟨uid', un'⟩ := p
      have hdeq : down db c sid sun now day k =
          (mark_selection_today (seen_user db c sid sun now) c uid' day,
            some (uid', un')) := by
        unfold down
        dsimp only
        rw [hch]
      rw [hdeq] at h
      have h2 : (some (uid', un') : Option (Int × String)) = some (uid, un) := h
      cases h2
      have hprops := mem_get_recent_users (seen_user db c sid sun now) c now uid un
        (choose_mem _ _ _ hch)
      obtain ⟨himm, r, hmem', hseen, _⟩ := hprops
      refine ⟨?_, ⟨r, hmem', hseen⟩, ?_⟩
      · have hcongr := is_user_immune_congr db (seen_user db c sid sun now) c (some uid)
          (some un) (by rw [seen_user_eq, upsert_user_immune])
        rw [hcongr] at himm
        exact himm
      · rw [hdeq]
        exact mem_mark_selection_today _ _ _ _

/-- Witness for the amended C6: with one active non-immune user, `down` picks
them and the conclusions evaluate. -/
theorem C6_down_no_immune_recent_witness :
    is_user_immune ⟨[((1, 5), ⟨some "dave", 10, 75⟩)], [], [], []⟩ 1 (some 5) (some "dave")
      = false :=
  (C6_down_no_immune_recent ⟨[((1, 5), ⟨some "dave", 10, 75⟩)], [], [], []⟩ 1 5 (some "dave")
    10 0 0 5 "dave" (by decide)).1

/-- C7: the daily reset sets the balance of every user in every chat to
`DAILY_START_BALANCE` regardless of its prior value (the other user fields are
kept) and changes nothing else: the `daily_stats` counters, the
`daily_selection` records and the immunity table are untouched. -/
theorem C7_daily_reset_spec (db : DB) :
    (do_daily_reset db).dailyStats = db.dailyStats ∧
    (do_daily_reset db).dailySelection = db.dailySelection ∧
    (do_daily_reset db).immune = db.immune ∧
    (∀ p ∈ (do_daily_reset db).users, p.2.balance = DAILY_START_BALANCE) ∧
    (∀ c u, lookupA (do_daily_reset db).users (c, u) =
      (lookupA db.users (c, u)).map fun r => { r with balance := DAILY_START_BALANCE }) := by
  refine ⟨rfl, rfl, rfl, ?_, ?_⟩
  · intro p hp
    obtain ⟨q, _, rfl⟩ := List.mem_map.mp hp
    rfl
  · intro c u
    exact lookupA_map_val db.users (c, u)
      (fun r => { r with balance := DAILY_START_BALANCE })

/-- Witness for C7: after the reset, a user that held 10 holds 75 and the
stat row is unchanged. -/
theorem C7_daily_reset_spec_witness :
    (((1 : Int), (2 : Int)),
        ({ username := some "bob", lastSeen := 3, balance := DAILY_START_BALANCE } : UserRec)).2.balance
      = DAILY_START_BALANCE ∧
    (do_daily_reset ⟨[((1, 2), ⟨some "bob", 3, 10⟩)], [((1, 2, 4), ⟨1, 2⟩)], [(1, 4, 2)],
        [⟨1, some 9, none⟩]⟩).dailyStats = [((1, 2, 4), ⟨1, 2⟩)] :=
  ⟨(C7_daily_reset_spec ⟨[((1, 2), ⟨some "bob", 3, 10⟩)], [((1, 2, 4), ⟨1, 2⟩)], [(1, 4, 2)],
      [⟨1, some 9, none⟩]⟩).2.2.2.1 _ (by decide),
   (C7_daily_reset_spec ⟨[((1, 2), ⟨some "bob", 3, 10⟩)], [((1, 2, 4), ⟨1, 2⟩)], [(1, 4, 2)],
      [⟨1, some 9, none⟩]⟩).1⟩

/-- C8: target resolution tries, in order and first success winning, (1) the
replied-to message's author, (2) the `@username` mention token looked up
case-insensitively among the chat's users, (3) the last numeric token of at
least six digits looked up as a user id; when no rule resolves a target the
gift and lookup handlers reply with a usage error and mutate no gift-relevant
state: `randomdown` leaves the database untouched, and `regalar` performs only
the caller observation that every message already triggers, leaving every
stored balance, all daily counters and all selection records unchanged. -/
theorem C8_target_resolution (db : DB) (c : Int) (msg : Msg) (now : Int) (sid : Int)
    (sun : Option String) (day : Int) (k e : Nat) :
    (∀ uid un, msg.replyAuthor = some (uid, un) →
      (resolve_target_from_update db c msg now).2 = some (uid, un.getD "")) ∧
    (msg.replyAuthor = none → ∀ m t, msg.mention = some m →
      find_user_by_name db c m = some t →
      resolve_target_from_update db c msg now = (db, some t)) ∧
    (msg.replyAuthor = none →
      (∀ m, msg.mention = some m → find_user_by_name db c m = none) →
      ∀ uid, msg.idTokens.getLast? = some uid →
      resolve_target_from_update db c msg now = (db, find_user_by_id db c uid)) ∧
    ((resolve_target_from_update db c msg now).2 = none →
      (resolve_target_from_update db c msg now).1 = db ∧
      randomdown db c msg now day e = (db, RandReply.usage)) ∧
    ((resolve_target_from_update (seen_user db c sid sun now) c msg now).2 = none →
      regalar db c sid sun msg now day k = (seen_user db c sid sun now, [Reply.usage]) ∧
      (regalar db c sid sun msg now day k).1.dailyStats = db.dailyStats ∧
      (regalar db c sid sun msg now day k).1.dailySelection = db.dailySelection ∧
      ∀ c' u' r, lookupA db.users (c', u') = some r →
        ∃ r', lookupA (regalar db c sid sun msg now day k).1.users (c', u') = some r' ∧
          r'.balance = r.balance) := by
  refine ⟨?_, ?_, ?_, ?_, ?_⟩
  · intro uid un hr
    unfold resolve_target_from_update
    rw [hr]
  · intro h0 m t hm hf
    unfold resolve_target_from_update
    rw [h0]
    dsimp only
    rw [hm]
    dsimp only
    rw [hf]
  · intro h0 hno uid hid
    unfold resolve_target_from_update
    rw [h0]
    dsimp only
    cases hm : msg.mention with
    | none =>
        dsimp only
        rw [hid]
    | some m =>
        dsimp only
        rw [hno m hm]
        dsimp only
        rw [hid]
  · intro hn
    have h1 := resolve_none_fst db c msg now hn
    refine ⟨h1, ?_⟩
    unfold randomdown
    dsimp only
    rw [hn, h1]
  · intro hn
    have h1 := resolve_none_fst (seen_user db c sid sun now) c msg now hn
    have hcoreeq : regalar_core db c sid sun msg now day =
        ((resolve_target_from_update (seen_user db c sid sun now) c msg now).1, none,
          [Reply.usage]) := by
      unfold regalar_core
      dsimp only
      rw [hn]
    have hreg : regalar db c sid sun msg now day k =
        ((resolve_target_from_update (seen_user db c sid sun now) c msg now).1,
          [Reply.usage]) := by
      unfold regalar
      rw [hcoreeq]
    refine ⟨by rw [hreg, h1], ?_, ?_, ?_⟩
    · rw [hreg, resolve_dailyStats, seen_user_eq, upsert_user_dailyStats]
    · rw [hreg, resolve_dailySelection, seen_user_eq, upsert_user_dailySelection]
    · intro c' u' r hr
      obtain ⟨r0, hr0, hb0⟩ := upsert_user_balance_pres db c sid sun now c' u' r hr
      obtain ⟨r1, hr1, hb1⟩ :=
        resolve_balance_pres (seen_user db c sid sun now) c msg now c' u' r0 hr0
      refine ⟨r1, ?_, hb1.trans hb0⟩
      rw [hreg]
      exact hr1

/-- Witness for C8: with a replied-to author present, resolution returns that
author; with nothing to resolve, `randomdown` replies usage and leaves the
store unchanged. -/
theorem C8_target_resolution_witness :
    (resolve_target_from_update ⟨[], [], [], []⟩ 1 ⟨some (7, some "eve"), none, [], []⟩ 0).2
      = some (7, "eve") ∧
    randomdown ⟨[], [], [], []⟩ 1 ⟨none, none, [], []⟩ 0 0 1
      = (⟨[], [], [], []⟩, RandReply.usage) :=
  ⟨(C8_target_resolution ⟨[], [], [], []⟩ 1 ⟨some (7, some "eve"), none, [], []⟩ 0 1 none
      0 0 1).1 7 (some "eve") rfl,
   ((C8_target_resolution ⟨[], [], [], []⟩ 1 ⟨none, none, [], []⟩ 0 1 none 0 0 1).2.2.2.1
      (by decide)).2⟩

theorem pairwise_desc_mergeSort (l : List (Int × String × Int)) :
    (l.mergeSort fun a b => decide (b.2.2 ≤ a.2.2)).Pairwise fun a b => b.2.2 ≤ a.2.2 := by
  have h := @List.sorted_mergeSort (Int × String × Int) (fun a b => decide (b.2.2 ≤ a.2.2))
    (fun a b z hab hbz => by
      simp only [decide_eq_true_eq] at hab hbz ⊢
      omega)
    (fun a b => by
      simp only [Bool.or_eq_true, decide_eq_true_eq]
      omega)
    l
  exact h.imp fun hab => by simpa using hab

theorem mem_today_received (db : DB) (c day uid : Int) (un : String) (rv : Int) :
    (uid, un, rv) ∈ (list_today_highlights db c day).1 ↔
      ((∃ s : StatRec, ((c, uid, day), s) ∈ db.dailyStats ∧ s.received = rv) ∧
        ALERT_THRESHOLD < rv ∧
        ∃ u : UserRec, lookupA db.users (c, uid) = some u ∧ un = u.username.getD "") := by
  unfold list_today_highlights
  dsimp only
  rw [List.mem_mergeSort, List.mem_filterMap]
  constructor
  · rintro ⟨⟨⟨pc, pu, pd⟩, ps⟩, hp, hval⟩
    by_cases hcond : pc = c ∧ pd = day ∧ ALERT_THRESHOLD < ps.received
    · rw [if_pos hcond] at hval
      obtain ⟨h1, h2, h3⟩ := hcond
      cases hu : lookupA db.users (c, pu) with
      | none =>
          rw [h1] at hval
          rw [hu] at hval
          cases hval
      | some u =>
          rw [h1] at hval
          rw [hu] at hval
          simp only [Option.map_some', Option.some.injEq, Prod.mk.injEq] at hval
          obtain ⟨h4, h5, h6⟩ := hval
          subst h1
          subst h2
          subst h4
          refine ⟨⟨ps, hp, h6⟩, by omega, u, hu, h5.symm⟩
    · rw [if_neg hcond] at hval
      cases hval
  · rintro ⟨⟨s, hsmem, hsrv⟩, hrv, u, hu, hun⟩
    refine ⟨((c, uid, day), s), hsmem, ?_⟩
    rw [if_pos ⟨rfl, rfl, (by omega : ALERT_THRESHOLD < s.received)⟩, hu]
    simp [hsrv, hun]

theorem mem_today_selection (db : DB) (c day uid : Int) (un : String) :
    (uid, un) ∈ (list_today_highlights db c day).2 ↔
      ((c, day, uid) ∈ db.dailySelection ∧
        ∃ u : UserRec, lookupA db.users (c, uid) = some u ∧ un = u.username.getD "") := by
  unfold list_today_highlights
  dsimp only
  rw [List.mem_filterMap]
  constructor
  · rintro ⟨⟨tc, td, tu⟩, ht, hval⟩
    by_cases hcond : tc = c ∧ td = day
    · rw [if_pos hcond] at hval
      obtain ⟨h1, h2⟩ := hcond
      cases hu : lookupA db.users (c, tu) with
      | none =>
          rw [h1] at hval
          rw [hu] at hval
          cases hval
      | some u =>
          rw [h1] at hval
          rw [hu] at hval
          simp only [Option.map_some', Option.some.injEq, Prod.mk.injEq] at hval
          obtain ⟨h3, h4⟩ := hval
          subst h1
          subst h2
          subst h3
          exact ⟨ht, u, hu, h4.symm⟩
    · rw [if_neg hcond] at hval
      cases hval
  · rintro ⟨hmem, u, hu, hun⟩
    refine ⟨(c, day, uid), hmem, ?_⟩
    rw [if_pos ⟨rfl, rfl⟩, hu]
    simp [hun]

theorem mem_map_fst_dedupByUid (l : List (Int × String)) (s : List Int) (uid : Int) :
    uid ∈ (dedupByUid l s).map Prod.fst ↔ uid ∈ l.map Prod.fst ∧ uid ∉ s := by
  induction l generalizing s with
  | nil => simp [dedupByUid]
  | cons a t ih =>
      obtain ⟨au, an⟩ := a
      by_cases ha : au ∈ s
      · rw [show dedupByUid ((au, an) :: t) s = dedupByUid t s from by
          simp [dedupByUid, ha]]
        rw [ih]
        simp only [List.map_cons, List.mem_cons]
        constructor
        · rintro ⟨hmem, hns⟩
          exact ⟨Or.inr hmem, hns⟩
        · rintro ⟨h1 | h1, hns⟩
          · subst h1
            exact absurd ha hns
          · exact ⟨h1, hns⟩
      · rw [show dedupByUid ((au, an) :: t) s = (au, an) :: dedupByUid t (au :: s) from by
          simp [dedupByUid, ha]]
        simp only [List.map_cons, List.mem_cons, ih]
        constructor
        · rintro (h1 | ⟨hmem, hns⟩)
          · subst h1
            exact ⟨Or.inl rfl, ha⟩
          · refine ⟨Or.inr hmem, fun hs => hns (Or.inr hs)⟩
        · rintro ⟨h1 | h1, hns⟩
          · exact Or.inl h1
          · by_cases he : uid = au
            · exact Or.inl he
            · right
              refine ⟨h1, fun hx => ?_⟩
              rcases hx with h | h
              · exact he h
              · exact hns h

theorem nodup_map_fst_dedupByUid (l : List (Int × String)) (s : List Int) :
    ((dedupByUid l s).map Prod.fst).Nodup := by
  induction l generalizing s with
  | nil => simp [dedupByUid]
  | cons a t ih =>
      obtain ⟨au, an⟩ := a
      by_cases ha : au ∈ s
      · rw [show dedupByUid ((au, an) :: t) s = dedupByUid t s from by
          simp [dedupByUid, ha]]
        exact ih s
      · rw [show dedupByUid ((au, an) :: t) s = (au, an) :: dedupByUid t (au :: s) from by
          simp [dedupByUid, ha]]
        simp only [List.map_cons]
        refine List.nodup_cons.mpr ⟨?_, ih (au :: s)⟩
        intro hmem
        rcases (mem_map_fst_dedupByUid t (au :: s) au).mp hmem with ⟨_, hns⟩
        exact hns (by simp)

/-- C9: the check listing contains exactly the chat's users whose `received`
counter for the day is strictly above `ALERT_THRESHOLD`, in descending order
of `received`, together with the day's chosen users de-duplicated by id; when
both lists are empty the reply is the "nothing notable today" message
(modelled as `none`), else the rendered pair. -/
theorem C9_check_spec (db : DB) (c day : Int) :
    (∀ uid un rv, (uid, un, rv) ∈ (list_today_highlights db c day).1 ↔
      ((∃ s : StatRec, ((c, uid, day), s) ∈ db.dailyStats ∧ s.received = rv) ∧
        ALERT_THRESHOLD < rv ∧
        ∃ u : UserRec, lookupA db.users (c, uid) = some u ∧ un = u.username.getD "")) ∧
    (list_today_highlights db c day).1.Pairwise (fun a b => b.2.2 ≤ a.2.2) ∧
    (∀ uid un, (uid, un) ∈ (list_today_highlights db c day).2 ↔
      ((c, day, uid) ∈ db.dailySelection ∧
        ∃ u : UserRec, lookupA db.users (c, uid) = some u ∧ un = u.username.getD "")) ∧
    (∀ uid, uid ∈ (dedupByUid (list_today_highlights db c day).2 []).map Prod.fst ↔
      uid ∈ (list_today_highlights db c day).2.map Prod.fst) ∧
    ((dedupByUid (list_today_highlights db c day).2 []).map Prod.fst).Nodup ∧
    (check_cmd db c day = none ↔
      (list_today_highlights db c day).1 = [] ∧ (list_today_highlights db c day).2 = []) ∧
    ((list_today_highlights db c day).1 ≠ [] ∨ (list_today_highlights db c day).2 ≠ [] →
      check_cmd db c day = some ((list_today_highlights db c day).1,
        dedupByUid (list_today_highlights db c day).2 [])) := by
  refine ⟨fun uid un rv => mem_today_received db c day uid un rv, ?_,
    fun uid un => mem_today_selection db c day uid un,
    fun uid => by rw [mem_map_fst_dedupByUid]; simp,
    nodup_map_fst_dedupByUid _ _, ?_, ?_⟩
  · unfold list_today_highlights
    dsimp only
    exact pairwise_desc_mergeSort _
  · unfold check_cmd
    dsimp only
    split
    · rename_i h
      exact ⟨fun _ => ⟨List.isEmpty_iff.mp h.1, List.isEmpty_iff.mp h.2⟩, fun _ => rfl⟩
    · rename_i h
      constructor
      · intro hx
        cases hx
      · intro hx
        exact absurd ⟨List.isEmpty_iff.mpr hx.1, List.isEmpty_iff.mpr hx.2⟩ h
  · intro hne
    unfold check_cmd
    dsimp only
    split
    · rename_i h
      rcases hne with hne | hne
      · exact absurd (List.isEmpty_iff.mp h.1) hne
      · exact absurd (List.isEmpty_iff.mp h.2) hne
    · rfl

/-- Witness for C9: one user over the threshold and one chosen user appear in
the listing. -/
theorem C9_check_spec_witness :
    (2, "bob", 25) ∈ (list_today_highlights ⟨[((1, 2), ⟨some "bob", 0, 75⟩),
        ((1, 3), ⟨some "carol", 0, 75⟩)], [((1, 2, 5), ⟨0, 25⟩)], [(1, 5, 3)], []⟩ 1 5).1 ∧
    check_cmd ⟨[((1, 2), ⟨some "bob", 0, 75⟩), ((1, 3), ⟨some "carol", 0, 75⟩)],
        [((1, 2, 5), ⟨0, 25⟩)], [(1, 5, 3)], []⟩ 1 5
      = some ((list_today_highlights ⟨[((1, 2), ⟨some "bob", 0, 75⟩),
          ((1, 3), ⟨some "carol", 0, 75⟩)], [((1, 2, 5), ⟨0, 25⟩)], [(1, 5, 3)], []⟩ 1 5).1,
        dedupByUid (list_today_highlights ⟨[((1, 2), ⟨some "bob", 0, 75⟩),
          ((1, 3), ⟨some "carol", 0, 75⟩)], [((1, 2, 5), ⟨0, 25⟩)], [(1, 5, 3)], []⟩ 1 5).2 []) := by
  have h := C9_check_spec ⟨[((1, 2), ⟨some "bob", 0, 75⟩), ((1, 3), ⟨some "carol", 0, 75⟩)],
    [((1, 2, 5), ⟨0, 25⟩)], [(1, 5, 3)], []⟩ 1 5
  have hm := (h.1 2 "bob" 25).mpr
    ⟨⟨⟨0, 25⟩, by decide, rfl⟩, by decide, ⟨some "bob", 0, 75⟩, by decide, rfl⟩
  refine ⟨hm, h.2.2.2.2.2.2 (Or.inl fun hnil => ?_)⟩
  rw [hnil] at hm
  cases hm

/-- C10: for the private immunity commands, a nonzero configured owner id makes
the owner check pass exactly for that user id, and every other caller is
refused with "No autorizado" and no state change; a configured owner id of `0`
makes the check pass for every user. -/
theorem C10_owner_gate (ownerId uid : Int) :
    (ownerId ≠ 0 → (_is_owner ownerId uid = true ↔ uid = ownerId)) ∧
    _is_owner 0 uid = true ∧
    (∀ (db : DB) (callerId : Int) (msg : Msg) (chatIdArg : Option Int),
      _is_owner ownerId callerId = false →
        immune_add db ownerId true callerId msg chatIdArg = (db, AdminReply.notAuthorized) ∧
        immune_remove db ownerId true callerId msg chatIdArg = (db, AdminReply.notAuthorized) ∧
        immune_list db ownerId true callerId chatIdArg = (db, AdminReply.notAuthorized)) := by
  refine ⟨?_, ?_, ?_⟩
  · intro h0
    unfold _is_owner
    constructor
    · intro h
      rcases Bool.or_eq_true_iff.mp h with h' | h'
      · exact absurd (by simpa using h') h0
      · simpa using h'
    · intro h
      simp [h]
  · unfold _is_owner
    simp
  · intro db callerId msg chatIdArg h
    refine ⟨?_, ?_, ?_⟩
    · unfold immune_add
      simp [h]
    · unfold immune_remove
      simp [h]
    · unfold immune_list
      simp [h]

/-- Witness for C10: with configured owner 7, caller 3 fails the check and
`immune_add` refuses without touching the store. -/
theorem C10_owner_gate_witness :
    (_is_owner 7 3 = true ↔ (3 : Int) = 7) ∧
    immune_add ⟨[], [], [], []⟩ 7 true 3 ⟨none, none, [], []⟩ none
      = (⟨[], [], [], []⟩, AdminReply.notAuthorized) :=
  ⟨(C10_owner_gate 7 3).1 (by decide),
   ((C10_owner_gate 7 3).2.2 ⟨[], [], [], []⟩ 3 ⟨none, none, [], []⟩ none (by decide)).1⟩

end MogoliBot
